import Mathlib

/-!
Verification development for the SEASIDE POS system (Flask + SQLite).

The Python source (`app.py`, `db_operations.py`) is shallowly embedded here:
* Money values (Python floats) are modelled as exact rationals `ℚ`; Python's
  `round(x, 2)` (round-half-to-even at two decimal places) is `round2`.
* The session cart `current_sale` of the `/pos` route (`pos_interface`) is the
  structure `Cart`; each POST action branch becomes a pure function on `Cart`.
* SQLite tables are modelled as Lean lists/functions; per-call success or
  failure of an INSERT/UPDATE is an explicit boolean oracle argument, mirroring
  the `True`/`False` return values of `db_operations.py`.
-/

/-- Round-half-to-even to the nearest integer, as Python's builtin `round`
behaves on exact decimal values. -/
def roundHalfEven (q : ℚ) : ℤ :=
  if q - ⌊q⌋ < 1/2 then ⌊q⌋
  else if 1/2 < q - ⌊q⌋ then ⌊q⌋ + 1
  else if ⌊q⌋ % 2 = 0 then ⌊q⌋ else ⌊q⌋ + 1

/-- Python's `round(x, 2)`: round to two decimal places, ties to even. -/
def round2 (q : ℚ) : ℚ := (roundHalfEven (q * 100) : ℚ) / 100

/-- A rational is a whole number of cents (an exact two-decimal value). -/
def IsCents (q : ℚ) : Prop := ∃ n : ℤ, q = (n : ℚ) / 100

theorem roundHalfEven_intCast (n : ℤ) : roundHalfEven (n : ℚ) = n := by
  simp [roundHalfEven, Int.floor_intCast]

theorem round2_eq_self {q : ℚ} (h : IsCents q) : round2 q = q := by
  obtain ⟨n, rfl⟩ := h
  have h100 : ((n : ℚ) / 100) * 100 = (n : ℚ) := by
    field_simp
  rw [round2, h100, roundHalfEven_intCast]

theorem isCents_round2 (q : ℚ) : IsCents (round2 q) := ⟨roundHalfEven (q * 100), rfl⟩

theorem isCents_zero : IsCents 0 := ⟨0, by norm_num⟩

theorem isCents_add {a b : ℚ} (ha : IsCents a) (hb : IsCents b) : IsCents (a + b) := by
  obtain ⟨m, rfl⟩ := ha
  obtain ⟨n, rfl⟩ := hb
  exact ⟨m + n, by push_cast; ring⟩

theorem isCents_intCast (n : ℤ) : IsCents (n : ℚ) := ⟨n * 100, by push_cast; ring⟩

/-- A line of the in-progress sale held in `session['current_sale']["items"]`:
a dict `{"name", "price", "quantity", "subtotal"}` in `pos_interface`. -/
structure SaleLine where
  name : String
  price : ℚ
  quantity : ℤ
  subtotal : ℚ
deriving DecidableEq

/-- The session cart `current_sale`: defaults to
`{"items": [], "customer_name": "N/A", "total": 0.0}` in `pos_interface`. -/
structure Cart where
  items : List SaleLine
  customer_name : String
  total : ℚ
deriving DecidableEq

/-- The default empty cart used when `session` has no `current_sale`. -/
def emptyCart : Cart := ⟨[], "N/A", 0⟩

/-- Sum of the `subtotal` fields, as `sum(item['subtotal'] for item in items)`. -/
def sumSubtotals (items : List SaleLine) : ℚ := (items.map SaleLine.subtotal).sum

/-- Core of the `add_item`/`add_custom_item` branches of `pos_interface`:
walk the item list; at the first line with the same name and (exactly) the same
price, increment its quantity and recompute its subtotal; if no line matches,
append a fresh line with subtotal `round(price * quantity, 2)`. -/
def insertOrMerge (items : List SaleLine) (name : String) (price : ℚ) (qty : ℤ) :
    List SaleLine :=
  match items with
  | [] => [⟨name, price, qty, round2 (price * qty)⟩]
  | l :: ls =>
    if l.name = name ∧ l.price = price then
      ⟨l.name, l.price, l.quantity + qty, round2 ((l.quantity + qty) * l.price)⟩ :: ls
    else
      l :: insertOrMerge ls name price qty

/-- Branch `action == 'add_item'` of `pos_interface`. `lookup` is the result of
`db.get_product_by_name_db(product_name)`: `none` when the product is absent
(the cart is then left unchanged), `some price` otherwise. A non-positive
quantity is rejected before the lookup. -/
def pos_add_item (c : Cart) (product_name : String) (lookup : Option ℚ) (quantity : ℤ) :
    Cart :=
  if quantity ≤ 0 then c
  else
    match lookup with
    | none => c
    | some price =>
      let items := insertOrMerge c.items product_name price quantity
      { c with items := items, total := round2 (sumSubtotals items) }

/-- Branch `action == 'add_custom_item'` of `pos_interface`: the entered price
is first rounded to two decimals, then a negative price or non-positive
quantity is rejected; otherwise the same merge-or-append logic runs. -/
def pos_add_custom_item (c : Cart) (custom_name : String) (custom_price_raw : ℚ)
    (custom_quantity : ℤ) : Cart :=
  let custom_price := round2 custom_price_raw
  if custom_price < 0 then c
  else if custom_quantity ≤ 0 then c
  else
    let items := insertOrMerge c.items custom_name custom_price custom_quantity
    { c with items := items, total := round2 (sumSubtotals items) }

/-- Branch `action == 'set_customer'` of `pos_interface`: an empty (stripped)
name normalizes to `"N/A"`. -/
def pos_set_customer (c : Cart) (customer_name_from_form : String) : Cart :=
  { c with customer_name := if customer_name_from_form = "" then "N/A"
                            else customer_name_from_form }

/-- Python's `math.isclose(a, b)` with its default tolerances
(`rel_tol = 1e-9`, `abs_tol = 0.0`), used by `pos_interface` to compare the
posted price with a stored line price. -/
def isclose (a b : ℚ) : Bool :=
  decide (|a - b| ≤ max ((1/1000000000) * max |a| |b|) 0)

/-- The line-match test shared by the `remove_item` and
`increase_qty`/`decrease_qty` branches: same name, `math.isclose` price. -/
def lineMatches (l : SaleLine) (item_name : String) (item_price : ℚ) : Bool :=
  l.name == item_name && isclose l.price item_price

/-- Branch `action == 'remove_item'` of `pos_interface`: filter out every line
matching both name and (isclose) price; the boolean reports whether the list
shrank (`False` triggers the "Could not find exact item" warning and the total
is then left untouched). -/
def pos_remove_item (c : Cart) (item_name : String) (item_price : ℚ) : Cart × Bool :=
  let items := c.items.filter (fun l => ! lineMatches l item_name item_price)
  if items.length < c.items.length then
    ({ c with items := items, total := round2 (sumSubtotals items) }, true)
  else
    (c, false)

/-- Quantity adjustment over the item list: at the first matching line, add
`delta` to its quantity; a result `≤ 0` pops the line, otherwise the subtotal
is recomputed. The boolean reports whether a matching line was found. -/
def adjustFirst (items : List SaleLine) (item_name : String) (item_price : ℚ)
    (delta : ℤ) : List SaleLine × Bool :=
  match items with
  | [] => ([], false)
  | l :: ls =>
    if lineMatches l item_name item_price then
      if l.quantity + delta ≤ 0 then (ls, true)
      else (⟨l.name, l.price, l.quantity + delta,
             round2 ((l.quantity + delta) * l.price)⟩ :: ls, true)
    else
      let r := adjustFirst ls item_name item_price delta
      (l :: r.1, r.2)

/-- Branches `action == 'increase_qty'` / `'decrease_qty'` of `pos_interface`
(`delta` is `+1` or `-1`): when a matching line was found the total is
recomputed as the rounded fold; otherwise the cart is unchanged. -/
def pos_adjust_qty (c : Cart) (item_name : String) (item_price : ℚ) (delta : ℤ) :
    Cart :=
  let r := adjustFirst c.items item_name item_price delta
  if r.2 then { c with items := r.1, total := round2 (sumSubtotals r.1) }
  else c

/-- Branch `action == 'clear_sale'`: `session.pop('current_sale')`, so the next
request sees the default empty cart. -/
def pos_clear_sale (_c : Cart) : Cart := emptyCart

/-- One POST action of the `/pos` route acting on the session cart. -/
inductive CartAction where
  | addItem (name : String) (lookup : Option ℚ) (qty : ℤ)
  | addCustomItem (name : String) (priceRaw : ℚ) (qty : ℤ)
  | removeItem (name : String) (price : ℚ)
  | increaseQty (name : String) (price : ℚ)
  | decreaseQty (name : String) (price : ℚ)
  | setCustomer (name : String)
  | clearSale

/-- Dispatch of `pos_interface` on `request.form.get('action')`. -/
def cartStep (c : Cart) : CartAction → Cart
  | .addItem n lk q => pos_add_item c n lk q
  | .addCustomItem n p q => pos_add_custom_item c n p q
  | .removeItem n p => (pos_remove_item c n p).1
  | .increaseQty n p => pos_adjust_qty c n p 1
  | .decreaseQty n p => pos_adjust_qty c n p (-1)
  | .setCustomer n => pos_set_customer c n
  | .clearSale => pos_clear_sale c

/-- A whole session: a sequence of POS actions applied to the initially empty
cart. -/
def cartRun (acts : List CartAction) : Cart := acts.foldl cartStep emptyCart

/-- A persisted `SaleItems` row. `db.add_sale_item_db` computes
`Subtotal = round(quantity * price_at_sale, 2)` before the INSERT. -/
structure SaleItemRow where
  productName : String
  quantity : ℤ
  priceAtSale : ℚ
  subtotal : ℚ
deriving DecidableEq

/-- The row that `add_sale_item_db(sale_id, product_name, quantity,
price_at_sale)` inserts (when the INSERT succeeds). -/
def add_sale_item_row (product_name : String) (quantity : ℤ) (price_at_sale : ℚ) :
    SaleItemRow :=
  ⟨product_name, quantity, price_at_sale, round2 (quantity * price_at_sale)⟩

/-- The store's `SELECT SUM(Subtotal) FROM SaleItems WHERE SaleID = ?`,
with the `NULL`-to-`0.0` defaulting both callers apply to the fetched row. -/
def sumRowSubtotals (rows : List SaleItemRow) : ℚ := (rows.map SaleItemRow.subtotal).sum

/-- Outcome reported by the `finalize_sale` branch of `pos_interface`
(which flash message / redirect the user gets). -/
inductive FinalizeOutcome where
  | emptyCartRejected
  | createFailed
  | partialFailure
  | totalUpdateFailed
  | success
deriving DecidableEq

/-- Persistent and session effects of one `finalize_sale` POST.
`totalAmount` is the `Sales.TotalAmount` column after the workflow; it is
`0` from `create_sale_db` until the explicit UPDATE runs (and meaningless
when `saleCreated = false`). -/
structure FinalizeResult where
  saleCreated : Bool
  persistedItems : List SaleItemRow
  totalAmount : ℚ
  cartAfter : Cart
  outcome : FinalizeOutcome
deriving DecidableEq

/-- The per-line loop of `finalize_sale`: call `db.add_sale_item_db` for every
cart line (never breaking early); `insertOk i` is whether the i-th call
returns `True`. Yields the persisted rows and the `all_items_added` flag. -/
def attemptInserts (items : List SaleLine) (i : ℕ) (insertOk : ℕ → Bool) :
    List SaleItemRow × Bool :=
  match items with
  | [] => ([], true)
  | l :: ls =>
    let r := attemptInserts ls (i + 1) insertOk
    if insertOk i then (add_sale_item_row l.name l.quantity l.price :: r.1, r.2)
    else (r.1, false)

/-- Branch `action == 'finalize_sale'` of `pos_interface`. `createOk` is
whether `db.create_sale_db` returns an id; `updateOk` is whether the
recalculate-and-UPDATE block completes without `sqlite3.Error`. The
recalculation/UPDATE of `TotalAmount` runs only under `if all_items_added:`;
on partial failure the cart is kept in the session and `TotalAmount` stays at
the `0.0` written by `create_sale_db`. -/
def pos_finalize_sale (c : Cart) (createOk : Bool) (insertOk : ℕ → Bool)
    (updateOk : Bool) : FinalizeResult :=
  if c.items = [] then ⟨false, [], 0, c, .emptyCartRejected⟩
  else if createOk = false then ⟨false, [], 0, c, .createFailed⟩
  else
    let r := attemptInserts c.items 0 insertOk
    if r.2 then
      if updateOk then ⟨true, r.1, sumRowSubtotals r.1, emptyCart, .success⟩
      else ⟨true, r.1, 0, c, .totalUpdateFailed⟩
    else ⟨true, r.1, 0, c, .partialFailure⟩

/-- One element of the `items` list posted to `POST /api/sales`. A field is
`none` when it is missing from the JSON object or when its `int`/`float`
conversion raises — both paths `continue` (skip the item) in `api_sync_sale`. -/
structure ApiItem where
  name : Option String
  quantity : Option ℤ
  price_at_sale : Option ℚ
deriving DecidableEq

/-- The validation `api_sync_sale` applies to one item: name present and
truthy (non-empty), quantity and price present, `quantity > 0`,
`price >= 0`; anything else is skipped with `continue`. -/
def apiItemAccepted (it : ApiItem) : Bool :=
  match it.name, it.quantity, it.price_at_sale with
  | some n, some q, some p => n ≠ "" && 0 < q && 0 ≤ p
  | _, _, _ => false

/-- The item loop of `api_sync_sale`: skip invalid items, attempt
`db.add_sale_item_db` for the rest (`insertOk i` = the i-th item's INSERT
succeeded; a failed INSERT is only logged). Yields the persisted rows. -/
def apiInserts (items : List ApiItem) (i : ℕ) (insertOk : ℕ → Bool) :
    List SaleItemRow :=
  match items with
  | [] => []
  | it :: its =>
    let rest := apiInserts its (i + 1) insertOk
    if apiItemAccepted it then
      match it.name, it.quantity, it.price_at_sale with
      | some n, some q, some p => if insertOk i then add_sale_item_row n q p :: rest else rest
      | _, _, _ => rest
    else rest

/-- HTTP response of `POST /api/sales` (after the API-key check). -/
inductive ApiResponse where
  | error (status : ℕ) (msg : String)
  | created (sale_id : ℕ) (total_amount_synced : ℚ)
deriving DecidableEq

/-- Response plus persistent effects of one `POST /api/sales`:
`saleRow` is the `(SaleID, TotalAmount)` of the `Sales` row (if created),
`saleItems` the persisted `SaleItems` rows. -/
structure ApiSyncResult where
  response : ApiResponse
  saleRow : Option (ℕ × ℚ)
  saleItems : List SaleItemRow
deriving DecidableEq

/-- The `api_sync_sale` handler for a JSON body with the given `items` list.
`createRes` is the id returned by `db.create_sale_db` (`none` = failure,
HTTP 500); `updateOk` is whether the final recalculate-and-UPDATE block runs
without `sqlite3.Error`. An empty `items` list is rejected with HTTP 400
before any row is written. -/
def api_sync_sale (items : List ApiItem) (_customer_name : String)
    (createRes : Option ℕ) (insertOk : ℕ → Bool) (updateOk : Bool) : ApiSyncResult :=
  if items = [] then
    ⟨.error 400 "Missing or invalid items list. Must be a non-empty list of sale items.", none, []⟩
  else
    match createRes with
    | none => ⟨.error 500 "Failed to create sale record on server", none, []⟩
    | some sale_id =>
      let rows := apiInserts items 0 insertOk
      if updateOk then
        ⟨.created sale_id (round2 (sumRowSubtotals rows)),
         some (sale_id, sumRowSubtotals rows), rows⟩
      else
        ⟨.error 500 "Sale items may have been added but failed to update final total",
         some (sale_id, 0), rows⟩

/-- Result dict of `get_weekly_sales_chart_data_db`:
`{'labels': ..., 'data': ..., 'total': ..., 'error'?: ...}`. -/
structure ChartResult where
  labels : List String
  data : List ℚ
  total : ℚ
  error : Option String
deriving DecidableEq

/-- Abbreviated weekday label (`strftime('%a')`) for a date modelled as a day
ordinal, with day 0 a Monday. -/
def weekdayName (d : ℤ) : String :=
  ["Mon", "Tue", "Wed", "Thu", "Fri", "Sat", "Sun"].getD (d % 7).toNat ""

/-- Model of `get_weekly_sales_chart_data_db(start_date_obj, end_date_obj)`.
Dates are day ordinals (ℤ). `query` stands for the grouped per-day SELECT:
`.error e` when the store raises (caught and turned into the sentinel result),
`.ok sales_dict` for the sparse day → `DailyTotal` map. The dense series walks
every day from start to end inclusive, defaulting missing days to `0.0`, and
the period total is the rounded running sum of the dense series. -/
def get_weekly_sales_chart_data_db (query : Except String (ℤ → Option ℚ))
    (start_date end_date : ℤ) : ChartResult :=
  match query with
  | .error e => ⟨[], [], 0, some e⟩
  | .ok sales_dict =>
    let days := (List.range (end_date - start_date + 1).toNat).map
      (fun i : ℕ => start_date + (i : ℤ))
    let data := days.map (fun d => (sales_dict d).getD 0)
    ⟨days.map weekdayName, data, round2 data.sum, none⟩

/-- The names in Python's `calendar.month_name[1..12]`. -/
def month_name_list : List String :=
  ["January", "February", "March", "April", "May", "June", "July",
   "August", "September", "October", "November", "December"]

/-- The guarded `calendar.month_name[month] if 1 <= month <= 12 else
"Invalid Month"` of `get_monthly_sales_chart_data_db`. -/
def monthName (month : ℕ) : String :=
  if 1 ≤ month ∧ month ≤ 12 then month_name_list.getD (month - 1) ""
  else "Invalid Month"

/-- Gregorian leap-year rule, as used by `calendar.monthrange`. -/
def isLeapYear (y : ℕ) : Bool := (y % 4 == 0 && y % 100 != 0) || y % 400 == 0

/-- Number of days in a month (`calendar.monthrange(year, month)[1]`). -/
def daysInMonth (y m : ℕ) : ℕ :=
  if m = 2 then (if isLeapYear y then 29 else 28)
  else if m = 4 ∨ m = 6 ∨ m = 9 ∨ m = 11 then 30
  else 31

/-- Result dict of `get_monthly_sales_chart_data_db` (adds `month_name`). -/
structure MonthlyChartResult where
  labels : List String
  data : List ℚ
  total : ℚ
  month_name : String
  error : Option String
deriving DecidableEq

/-- Model of `get_monthly_sales_chart_data_db(year, month)`. `query` stands
for the grouped per-day SELECT keyed by day-of-month; a store failure is
caught and becomes the sentinel result (which still carries `month_name`). -/
def get_monthly_sales_chart_data_db (query : Except String (ℕ → Option ℚ))
    (year month : ℕ) : MonthlyChartResult :=
  match query with
  | .error e => ⟨[], [], 0, monthName month, some e⟩
  | .ok sales_dict =>
    let dayNums := (List.range (daysInMonth year month)).map (· + 1)
    let data := dayNums.map (fun d => (sales_dict d).getD 0)
    ⟨dayNums.map toString, data, round2 data.sum, monthName month, none⟩

/-- A `Customers` row (the fields the paginated listing uses). -/
structure Customer where
  CustomerID : ℕ
  CustomerName : String
deriving DecidableEq

/-- ASCII lower-casing, as SQLite's `COLLATE NOCASE` folds only A–Z. -/
def asciiLower (s : String) : String :=
  s.map (fun c => if 'A' ≤ c ∧ c ≤ 'Z' then Char.ofNat (c.toNat + 32) else c)

/-- The `ORDER BY CustomerName COLLATE NOCASE` comparison. -/
def customerLe (a b : Customer) : Bool :=
  decide (asciiLower a.CustomerName ≤ asciiLower b.CustomerName)

/-- The customer table ordered by name, case-insensitively ascending. -/
def sortCustomersNocase (table : List Customer) : List Customer :=
  table.mergeSort customerLe

/-- Model of `get_customers_paginated_db(page, per_page)`: the ordered table
with `OFFSET (page - 1) * per_page LIMIT per_page`. -/
def get_customers_paginated_db (table : List Customer) (page per_page : ℕ) :
    List Customer :=
  ((sortCustomersNocase table).drop ((page - 1) * per_page)).take per_page

/-- Items per page used by all paginated listings in `app.py`. -/
def ITEMS_PER_PAGE : ℕ := 10

/-- Python's `math.ceil(total / per)` on nonnegative integers. -/
def ceilPages (total per : ℕ) : ℕ := (⌈(total : ℚ) / (per : ℚ)⌉).toNat

/-- Outcome of the `/customers` route: either a rendered page or a redirect
to another page number. -/
inductive ListCustomersResult where
  | page (customers : List Customer) (current_page total_pages total_items : ℕ)
  | redirectToPage (page_num : ℕ)
deriving DecidableEq

/-- Model of the `list_customers(page_num)` route: fetch the requested page;
if it is empty although the page number exceeds 1 and customers exist,
redirect to the last available page; otherwise render with
`total_pages = ceil(total / ITEMS_PER_PAGE)` (0 when there are no customers). -/
def list_customers (table : List Customer) (page_num : ℕ) : ListCustomersResult :=
  let total_customers := table.length
  let customers_on_page := get_customers_paginated_db table page_num ITEMS_PER_PAGE
  if customers_on_page = [] ∧ 1 < page_num ∧ 0 < total_customers then
    .redirectToPage (if 0 < total_customers then ceilPages total_customers ITEMS_PER_PAGE else 1)
  else
    .page customers_on_page page_num
      (if 0 < total_customers then ceilPages total_customers ITEMS_PER_PAGE else 0)
      total_customers

theorem round2_intCast (n : ℤ) : round2 (n : ℚ) = n :=
  round2_eq_self (isCents_intCast n)

theorem isCents_listSum (xs : List ℚ) (h : ∀ x ∈ xs, IsCents x) : IsCents xs.sum := by
  induction xs with
  | nil => simpa using isCents_zero
  | cons x xs ih =>
    rw [List.sum_cons]
    exact isCents_add (h x (List.mem_cons_self x xs))
      (ih fun y hy => h y (List.mem_cons_of_mem x hy))

theorem isCents_sumSubtotals {items : List SaleLine}
    (h : ∀ l ∈ items, IsCents l.subtotal) : IsCents (sumSubtotals items) :=
  isCents_listSum _ (by
    intro x hx
    obtain ⟨l, hl, rfl⟩ := List.mem_map.1 hx
    exact h l hl)

theorem insertOrMerge_cents {items : List SaleLine} {name : String} {price : ℚ}
    {qty : ℤ} (h : ∀ l ∈ items, IsCents l.subtotal) :
    ∀ l ∈ insertOrMerge items name price qty, IsCents l.subtotal := by
  induction items with
  | nil =>
    intro l hl
    simp only [insertOrMerge, List.mem_singleton] at hl
    subst hl
    exact isCents_round2 _
  | cons x xs ih =>
    intro l hl
    rw [insertOrMerge] at hl
    by_cases hc : x.name = name ∧ x.price = price
    · rw [if_pos hc] at hl
      rcases List.mem_cons.1 hl with h1 | h2
      · subst h1; exact isCents_round2 _
      · exact h l (List.mem_cons_of_mem x h2)
    · rw [if_neg hc] at hl
      rcases List.mem_cons.1 hl with h1 | h2
      · rw [h1]; exact h x (List.mem_cons_self x xs)
      · exact ih (fun y hy => h y (List.mem_cons_of_mem x hy)) l h2

theorem adjustFirst_cents {items : List SaleLine} {name : String} {price : ℚ}
    {delta : ℤ} (h : ∀ l ∈ items, IsCents l.subtotal) :
    ∀ l ∈ (adjustFirst items name price delta).1, IsCents l.subtotal := by
  induction items with
  | nil => intro l hl; simp [adjustFirst] at hl
  | cons x xs ih =>
    intro l hl
    rw [adjustFirst] at hl
    by_cases hm : lineMatches x name price
    · rw [if_pos hm] at hl
      by_cases hq : x.quantity + delta ≤ 0
      · rw [if_pos hq] at hl
        exact h l (List.mem_cons_of_mem x hl)
      · rw [if_neg hq] at hl
        rcases List.mem_cons.1 hl with h1 | h2
        · subst h1; exact isCents_round2 _
        · exact h l (List.mem_cons_of_mem x h2)
    · rw [if_neg hm] at hl
      rcases List.mem_cons.1 hl with h1 | h2
      · rw [h1]; exact h x (List.mem_cons_self x xs)
      · exact ih (fun y hy => h y (List.mem_cons_of_mem x hy)) l h2

/-- Invariant carried by every reachable session cart: all subtotals are exact
two-decimal values and the running total is the exact fold of the subtotals. -/
def CartInv (c : Cart) : Prop :=
  (∀ l ∈ c.items, IsCents l.subtotal) ∧ c.total = sumSubtotals c.items

theorem cartInv_empty : CartInv emptyCart := by
  constructor
  · intro l hl; simp [emptyCart] at hl
  · simp [emptyCart, sumSubtotals]

theorem cartStep_inv {c : Cart} (hc : CartInv c) (a : CartAction) :
    CartInv (cartStep c a) := by
  have hcents := hc.1
  cases a with
  | addItem n lk q =>
    show CartInv (pos_add_item c n lk q)
    unfold pos_add_item
    by_cases hq : q ≤ 0
    · rw [if_pos hq]; exact hc
    · rw [if_neg hq]
      cases lk with
      | none => exact hc
      | some p =>
        exact ⟨insertOrMerge_cents hcents,
          round2_eq_self (isCents_sumSubtotals (insertOrMerge_cents hcents))⟩
  | addCustomItem n p q =>
    show CartInv (pos_add_custom_item c n p q)
    unfold pos_add_custom_item
    by_cases hp : round2 p < 0
    · simp only [if_pos hp]; exact hc
    · by_cases hq : q ≤ 0
      · simp only [if_neg hp, if_pos hq]; exact hc
      · simp only [if_neg hp, if_neg hq]
        refine ⟨insertOrMerge_cents hcents, ?_⟩
        exact round2_eq_self (isCents_sumSubtotals (insertOrMerge_cents hcents))
  | removeItem n p =>
    show CartInv (pos_remove_item c n p).1
    unfold pos_remove_item
    by_cases hlen : (c.items.filter (fun l => ! lineMatches l n p)).length < c.items.length
    · simp only [if_pos hlen]
      have hsub : ∀ l ∈ c.items.filter (fun l => ! lineMatches l n p), IsCents l.subtotal := by
        intro l hl
        exact hcents l (List.mem_of_mem_filter hl)
      exact ⟨hsub, round2_eq_self (isCents_sumSubtotals hsub)⟩
    · simp only [if_neg hlen]; exact hc
  | increaseQty n p =>
    show CartInv (pos_adjust_qty c n p 1)
    unfold pos_adjust_qty
    by_cases hf : (adjustFirst c.items n p 1).2
    · simp only [if_pos hf]
      exact ⟨adjustFirst_cents hcents,
        round2_eq_self (isCents_sumSubtotals (adjustFirst_cents hcents))⟩
    · simp only [if_neg hf]; exact hc
  | decreaseQty n p =>
    show CartInv (pos_adjust_qty c n p (-1))
    unfold pos_adjust_qty
    by_cases hf : (adjustFirst c.items n p (-1)).2
    · simp only [if_pos hf]
      exact ⟨adjustFirst_cents hcents,
        round2_eq_self (isCents_sumSubtotals (adjustFirst_cents hcents))⟩
    · simp only [if_neg hf]; exact hc
  | setCustomer n =>
    show CartInv (pos_set_customer c n)
    exact ⟨hc.1, hc.2⟩
  | clearSale =>
    show CartInv (pos_clear_sale c)
    exact cartInv_empty

theorem foldl_cartStep_inv (acts : List CartAction) :
    ∀ c : Cart, CartInv c → CartInv (List.foldl cartStep c acts) := by
  induction acts with
  | nil => intro c hc; simpa using hc
  | cons a as ih =>
    intro c hc
    rw [List.foldl_cons]
    exact ih _ (cartStep_inv hc a)

theorem cartRun_inv (acts : List CartAction) : CartInv (cartRun acts) :=
  foldl_cartStep_inv acts emptyCart cartInv_empty

theorem insertOrMerge_of_no_match {items : List SaleLine} {name : String} {price : ℚ}
    (qty : ℤ) (h : ∀ l ∈ items, ¬(l.name = name ∧ l.price = price)) :
    insertOrMerge items name price qty
      = items ++ [⟨name, price, qty, round2 (price * qty)⟩] := by
  induction items with
  | nil => simp [insertOrMerge]
  | cons x xs ih =>
    rw [insertOrMerge, if_neg (h x (List.mem_cons_self x xs)),
      ih (fun l hl => h l (List.mem_cons_of_mem x hl)), List.cons_append]

theorem insertOrMerge_first_match {pre : List SaleLine} {l : SaleLine}
    (post : List SaleLine) {name : String} {price : ℚ} (qty : ℤ)
    (hpre : ∀ x ∈ pre, ¬(x.name = name ∧ x.price = price))
    (hl : l.name = name ∧ l.price = price) :
    insertOrMerge (pre ++ l :: post) name price qty
      = pre ++ ⟨l.name, l.price, l.quantity + qty,
                round2 ((l.quantity + qty) * l.price)⟩ :: post := by
  induction pre with
  | nil => rw [List.nil_append, List.nil_append, insertOrMerge, if_pos hl]
  | cons x xs ih =>
    rw [List.cons_append, insertOrMerge, if_neg (hpre x (List.mem_cons_self x xs)),
      ih (fun y hy => hpre y (List.mem_cons_of_mem x hy)), List.cons_append]

theorem adjustFirst_of_no_match {items : List SaleLine} {name : String} {price : ℚ}
    (delta : ℤ) (h : ∀ l ∈ items, lineMatches l name price = false) :
    adjustFirst items name price delta = (items, false) := by
  induction items with
  | nil => rfl
  | cons x xs ih =>
    rw [adjustFirst, if_neg (by simp [h x (List.mem_cons_self x xs)])]
    simp only [ih (fun l hl => h l (List.mem_cons_of_mem x hl))]

theorem adjustFirst_first_match_pops {pre : List SaleLine} {l : SaleLine}
    (post : List SaleLine) {name : String} {price : ℚ} {delta : ℤ}
    (hpre : ∀ x ∈ pre, lineMatches x name price = false)
    (hl : lineMatches l name price = true)
    (hq : l.quantity + delta ≤ 0) :
    adjustFirst (pre ++ l :: post) name price delta = (pre ++ post, true) := by
  induction pre with
  | nil => rw [List.nil_append, List.nil_append, adjustFirst, if_pos hl, if_pos hq]
  | cons x xs ih =>
    rw [List.cons_append, adjustFirst, if_neg (by simp [hpre x (List.mem_cons_self x xs)])]
    simp only [ih (fun y hy => hpre y (List.mem_cons_of_mem x hy)), List.cons_append]

theorem filter_no_match {items : List SaleLine} {name : String} {price : ℚ}
    (h : ∀ l ∈ items, lineMatches l name price = false) :
    items.filter (fun l => ! lineMatches l name price) = items :=
  List.filter_eq_self.2 (fun a ha => by simp [h a ha])

theorem filter_unique_match {pre : List SaleLine} {l : SaleLine} {post : List SaleLine}
    {name : String} {price : ℚ}
    (hpre : ∀ x ∈ pre, lineMatches x name price = false)
    (hpost : ∀ x ∈ post, lineMatches x name price = false)
    (hl : lineMatches l name price = true) :
    (pre ++ l :: post).filter (fun x => ! lineMatches x name price) = pre ++ post := by
  rw [List.filter_append, filter_no_match hpre, List.filter_cons, filter_no_match hpost]
  simp [hl]

theorem attemptInserts_all_ok (items : List SaleLine) (i : ℕ) (ok : ℕ → Bool)
    (h : ∀ j, ok j = true) :
    attemptInserts items i ok
      = (items.map (fun l => add_sale_item_row l.name l.quantity l.price), true) := by
  induction items generalizing i with
  | nil => rfl
  | cons l ls ih =>
    rw [attemptInserts]
    simp only [ih (i + 1), if_pos (h i), List.map_cons]

theorem apiInserts_all_skipped {items : List ApiItem} (i : ℕ) (ok : ℕ → Bool)
    (h : ∀ it ∈ items, apiItemAccepted it = false) :
    apiInserts items i ok = [] := by
  induction items generalizing i with
  | nil => rfl
  | cons it its ih =>
    rw [apiInserts, if_neg (by simp [h it (List.mem_cons_self it its)])]
    exact ih (i + 1) (fun y hy => h y (List.mem_cons_of_mem it hy))

theorem apiInserts_cents (items : List ApiItem) (i : ℕ) (ok : ℕ → Bool) :
    ∀ r ∈ apiInserts items i ok, IsCents r.subtotal := by
  induction items generalizing i with
  | nil => intro r hr; simp [apiInserts] at hr
  | cons it its ih =>
    intro r hr
    rw [apiInserts] at hr
    by_cases ha : apiItemAccepted it
    · rw [if_pos ha] at hr
      rcases hn : it.name with - | n <;> rcases hq : it.quantity with - | q <;>
        rcases hp : it.price_at_sale with - | p <;>
        simp only [hn, hq, hp] at hr
      all_goals first
      | exact ih (i + 1) r hr
      | (by_cases hok : ok i
         · rw [if_pos hok] at hr
           rcases List.mem_cons.1 hr with h1 | h2
           · rw [h1]; exact isCents_round2 _
           · exact ih (i + 1) r h2
         · rw [if_neg hok] at hr
           exact ih (i + 1) r hr)
    · rw [if_neg ha] at hr
      exact ih (i + 1) r hr

theorem isCents_sumRowSubtotals {rows : List SaleItemRow}
    (h : ∀ r ∈ rows, IsCents r.subtotal) : IsCents (sumRowSubtotals rows) :=
  isCents_listSum _ (by
    intro x hx
    obtain ⟨r, hr, rfl⟩ := List.mem_map.1 hx
    exact h r hr)

theorem attemptInserts_cents (items : List SaleLine) (i : ℕ) (ok : ℕ → Bool) :
    ∀ r ∈ (attemptInserts items i ok).1, IsCents r.subtotal := by
  induction items generalizing i with
  | nil => intro r hr; simp [attemptInserts] at hr
  | cons l ls ih =>
    intro r hr
    rw [attemptInserts] at hr
    by_cases hok : ok i
    · rw [if_pos hok] at hr
      rcases List.mem_cons.1 hr with h1 | h2
      · rw [h1]; exact isCents_round2 _
      · exact ih (i + 1) r h2
    · rw [if_neg hok] at hr
      exact ih (i + 1) r hr

/-- C2: for every sequence of cart mutations (add item, add custom item,
remove item, increase/decrease quantity, set customer, clear) applied to an
initially empty cart, after each mutation the cart's `total` field equals the
exact sum of the `subtotal` fields of all current line entries. -/
theorem cart_total_is_fold_of_subtotals (acts : List CartAction) :
    (cartRun acts).total = sumSubtotals (cartRun acts).items :=
  (cartRun_inv acts).2

/-- C3: for every cart with zero line entries, `finalize_sale` is rejected:
no Sale row is created (independently of the create/insert/update oracles),
no SaleItems rows are created, and the cart is left unchanged. -/
theorem finalize_empty_cart_rejected (c : Cart) (createOk : Bool)
    (insertOk : ℕ → Bool) (updateOk : Bool) (h : c.items = []) :
    pos_finalize_sale c createOk insertOk updateOk
      = ⟨false, [], 0, c, .emptyCartRejected⟩ := by
  unfold pos_finalize_sale
  rw [if_pos h]

/-- Witness for C3 at the default empty cart. -/
theorem finalize_empty_cart_rejected_witness :
    pos_finalize_sale emptyCart true (fun _ => true) true
      = ⟨false, [], 0, emptyCart, .emptyCartRejected⟩ :=
  finalize_empty_cart_rejected emptyCart true (fun _ => true) true rfl

/-- C4: `add_item` with a positive quantity for a catalog product either
increments the first line with the same name and unit price (recomputing its
subtotal as the rounded quantity-price product) leaving every other line
untouched, or appends a fresh line when no line matches. -/
theorem pos_add_item_merge_or_append (c : Cart) (name : String) (price : ℚ)
    (qty : ℤ) (hq : 0 < qty) :
    ((∀ l ∈ c.items, ¬(l.name = name ∧ l.price = price)) →
      (pos_add_item c name (some price) qty).items
        = c.items ++ [⟨name, price, qty, round2 (price * qty)⟩])
    ∧ (∀ pre l post, c.items = pre ++ l :: post →
        (∀ x ∈ pre, ¬(x.name = name ∧ x.price = price)) →
        l.name = name → l.price = price →
        (pos_add_item c name (some price) qty).items
          = pre ++ ⟨l.name, l.price, l.quantity + qty,
                    round2 ((l.quantity + qty) * l.price)⟩ :: post) := by
  have hq2 : ¬ qty ≤ 0 := not_le.2 hq
  constructor
  · intro h
    show (pos_add_item c name (some price) qty).items = _
    unfold pos_add_item
    rw [if_neg hq2]
    exact insertOrMerge_of_no_match qty h
  · intro pre l post hsplit hpre hn hp
    show (pos_add_item c name (some price) qty).items = _
    unfold pos_add_item
    rw [if_neg hq2]
    show insertOrMerge c.items name price qty = _
    rw [hsplit]
    exact insertOrMerge_first_match post qty hpre ⟨hn, hp⟩

/-- Cart used to witness C4. -/
def c4Cart : Cart := ⟨[⟨"A", 10, 2, 20⟩], "N/A", 20⟩

/-- Witness for C4: appending a new line and merging into an existing one. -/
theorem pos_add_item_merge_or_append_witness :
    (pos_add_item c4Cart "B" (some 5) 2).items
      = [⟨"A", 10, 2, 20⟩, ⟨"B", 5, 2, round2 (5 * 2)⟩]
    ∧ (pos_add_item c4Cart "A" (some 10) 3).items
      = [⟨"A", 10, 2 + 3, round2 (((2 + 3 : ℤ) : ℚ) * 10)⟩] := by
  constructor
  · have h := (pos_add_item_merge_or_append c4Cart "B" 5 2 (by norm_num)).1
    rw [h (by intro l hl; simp only [c4Cart, List.mem_singleton] at hl; rw [hl]; norm_num)]
    rfl
  · have h := (pos_add_item_merge_or_append c4Cart "A" 10 3 (by norm_num)).2
    rw [h [] ⟨"A", 10, 2, 20⟩ [] (by rfl) (by intro x hx; simp at hx) rfl rfl]
    norm_num

/-- C5: `decrease_qty` on the (first) matching line whose quantity is 1
removes that line entirely and recomputes the total excluding it; adjusting
a (name, price) pair with no matching line leaves the cart unchanged. -/
theorem pos_decrease_qty_spec (c : Cart) (name : String) (price : ℚ) :
    (∀ pre l post, c.items = pre ++ l :: post →
      (∀ x ∈ pre, lineMatches x name price = false) →
      lineMatches l name price = true → l.quantity = 1 →
      pos_adjust_qty c name price (-1)
        = { c with items := pre ++ post,
                   total := round2 (sumSubtotals (pre ++ post)) })
    ∧ ((∀ l ∈ c.items, lineMatches l name price = false) →
        pos_adjust_qty c name price (-1) = c) := by
  constructor
  · intro pre l post hsplit hpre hl hq1
    have hadj : adjustFirst c.items name price (-1) = (pre ++ post, true) := by
      rw [hsplit]
      exact adjustFirst_first_match_pops post hpre hl (by rw [hq1]; norm_num)
    unfold pos_adjust_qty
    rw [hadj]
    rfl
  · intro h
    have hadj := adjustFirst_of_no_match (-1) h
    unfold pos_adjust_qty
    rw [hadj]
    rfl

/-- Cart used to witness C5. -/
def c5Cart : Cart := ⟨[⟨"A", 10, 1, 10⟩, ⟨"B", 20, 2, 40⟩], "N/A", 50⟩

/-- Witness for C5: removing a quantity-1 line, and a no-match no-op. -/
theorem pos_decrease_qty_spec_witness :
    pos_adjust_qty c5Cart "A" 10 (-1)
      = { c5Cart with items := [⟨"B", 20, 2, 40⟩],
                      total := round2 (sumSubtotals [⟨"B", 20, 2, 40⟩]) }
    ∧ pos_adjust_qty c5Cart "Z" 10 (-1) = c5Cart := by
  constructor
  · have h := (pos_decrease_qty_spec c5Cart "A" 10).1
    exact h [] ⟨"A", 10, 1, 10⟩ [⟨"B", 20, 2, 40⟩] (by rfl)
      (by intro x hx; simp at hx) (by simp [lineMatches, isclose]) rfl
  · have h := (pos_decrease_qty_spec c5Cart "Z" 10).2
    refine h ?_
    intro l hl
    simp only [c5Cart, List.mem_cons, List.mem_singleton] at hl
    rcases hl with h1 | h1 | h1
    · rw [h1]; simp [lineMatches]
    · rw [h1]; simp [lineMatches]
    · simp at h1

/-- C6: `remove_item(name, price)` removes exactly the unique line matching
both the given name and the given price (the total being recomputed over the
remaining lines); when no line matches, the cart is unchanged and the caller
is informed (flag `false`) that no removal occurred. -/
theorem pos_remove_item_spec (c : Cart) (name : String) (price : ℚ) :
    (∀ pre l post, c.items = pre ++ l :: post →
      (∀ x ∈ pre, lineMatches x name price = false) →
      (∀ x ∈ post, lineMatches x name price = false) →
      lineMatches l name price = true →
      pos_remove_item c name price
        = ({ c with items := pre ++ post,
                    total := round2 (sumSubtotals (pre ++ post)) }, true))
    ∧ ((∀ l ∈ c.items, lineMatches l name price = false) →
        pos_remove_item c name price = (c, false)) := by
  constructor
  · intro pre l post hsplit hpre hpost hl
    have hfil : c.items.filter (fun x => ! lineMatches x name price) = pre ++ post := by
      rw [hsplit]
      exact filter_unique_match hpre hpost hl
    have hlen : (pre ++ post).length < c.items.length := by
      rw [hsplit]
      simp
    unfold pos_remove_item
    rw [hfil, if_pos hlen]
  · intro h
    have hfil := filter_no_match h
    unfold pos_remove_item
    rw [hfil, if_neg (lt_irrefl _)]

/-- Witness for C6: removing the unique matching line, and a no-match no-op. -/
theorem pos_remove_item_spec_witness :
    pos_remove_item c5Cart "B" 20
      = ({ c5Cart with items := [⟨"A", 10, 1, 10⟩],
                       total := round2 (sumSubtotals [⟨"A", 10, 1, 10⟩]) }, true)
    ∧ pos_remove_item c5Cart "A" 11 = (c5Cart, false) := by
  constructor
  · have h := (pos_remove_item_spec c5Cart "B" 20).1
    have := h [⟨"A", 10, 1, 10⟩] ⟨"B", 20, 2, 40⟩ [] (by rfl)
      (by intro x hx; simp only [List.mem_singleton] at hx; rw [hx]; simp [lineMatches])
      (by intro x hx; simp at hx) (by simp [lineMatches, isclose])
    simpa using this
  · have h := (pos_remove_item_spec c5Cart "A" 11).2
    refine h ?_
    intro l hl
    simp only [c5Cart, List.mem_cons, List.mem_singleton] at hl
    rcases hl with h1 | h1 | h1
    · rw [h1]
      simp only [lineMatches, isclose]
      norm_num
    · rw [h1]; simp [lineMatches]
    · simp at h1

/-- Three-line cart used for the C1 analysis. -/
def c1Cart : Cart := ⟨[⟨"A", 10, 1, 10⟩, ⟨"B", 20, 1, 20⟩, ⟨"C", 30, 1, 30⟩], "N/A", 60⟩

/-- Insert oracle for C1: the second of the three `add_sale_item_db` calls
fails, the others succeed. -/
def c1InsertOk : ℕ → Bool := fun i => i != 1

theorem c1_round2_ten : round2 (((1 : ℤ) : ℚ) * 10) = 10 := by
  rw [show (((1 : ℤ) : ℚ) * 10) = (10 : ℚ) by push_cast; ring]
  exact round2_eq_self ⟨1000, by norm_num⟩

theorem c1_round2_twenty : round2 (((1 : ℤ) : ℚ) * 20) = 20 := by
  rw [show (((1 : ℤ) : ℚ) * 20) = (20 : ℚ) by push_cast; ring]
  exact round2_eq_self ⟨2000, by norm_num⟩

theorem c1_round2_thirty : round2 (((1 : ℤ) : ℚ) * 30) = 30 := by
  rw [show (((1 : ℤ) : ℚ) * 30) = (30 : ℚ) by push_cast; ring]
  exact round2_eq_self ⟨3000, by norm_num⟩

theorem c1_attempt_eval :
    attemptInserts c1Cart.items 0 c1InsertOk
      = ([add_sale_item_row "A" 1 10, add_sale_item_row "C" 1 30], false) := by
  simp [c1Cart, c1InsertOk, attemptInserts]

theorem c1_sum_eval :
    sumRowSubtotals [add_sale_item_row "A" 1 10, add_sale_item_row "C" 1 30] = 40 := by
  simp only [sumRowSubtotals, add_sale_item_row, List.map_cons, List.map_nil,
    List.sum_cons, List.sum_nil]
  rw [c1_round2_ten, c1_round2_thirty]
  norm_num

theorem c1_finalize_eval :
    pos_finalize_sale c1Cart true c1InsertOk true
      = ⟨true, [add_sale_item_row "A" 1 10, add_sale_item_row "C" 1 30], 0, c1Cart,
         .partialFailure⟩ := by
  simp only [pos_finalize_sale]
  rw [if_neg (by simp [c1Cart]), if_neg (by simp), c1_attempt_eval]
  simp

/-- C1 counterexample: finalizing a three-line cart where the second
`add_sale_item_db` call fails leaves `Sales.TotalAmount` at 0, while the
persisted subtotals sum to 40 — the recalculation is NOT performed on partial
failure (`pos_interface` runs it only under `if all_items_added:`), so the
claimed equality fails on this input. -/
theorem finalize_partial_total_not_recalculated :
    (pos_finalize_sale c1Cart true c1InsertOk true).totalAmount = 0
    ∧ sumRowSubtotals (pos_finalize_sale c1Cart true c1InsertOk true).persistedItems = 40
    ∧ (pos_finalize_sale c1Cart true c1InsertOk true).totalAmount
        ≠ sumRowSubtotals (pos_finalize_sale c1Cart true c1InsertOk true).persistedItems := by
  refine ⟨by rw [c1_finalize_eval], ?_, ?_⟩
  · rw [c1_finalize_eval]
    exact c1_sum_eval
  · rw [c1_finalize_eval]
    show (0 : ℚ) ≠ sumRowSubtotals [add_sale_item_row "A" 1 10, add_sale_item_row "C" 1 30]
    rw [c1_sum_eval]
    norm_num

/-- C1 (amended): in the finalization workflow the sale-total recalculation
runs only when every `add_sale_item_db` call succeeded. On full success
(`all_items_added`) with the UPDATE succeeding, the persisted `TotalAmount`
equals the sum of the persisted subtotals and the cart is cleared; when some
insert fails, the recalculation is skipped, `TotalAmount` remains the 0.0
written by `create_sale_db`, the persisted items are exactly the successful
inserts, the cart is kept, and the outcome is reported as partial failure. -/
theorem pos_finalize_sale_total_spec (c : Cart) (insertOk : ℕ → Bool)
    (hne : c.items ≠ []) :
    ((attemptInserts c.items 0 insertOk).2 = true →
      pos_finalize_sale c true insertOk true
        = ⟨true, (attemptInserts c.items 0 insertOk).1,
           sumRowSubtotals (attemptInserts c.items 0 insertOk).1, emptyCart, .success⟩)
    ∧ ((attemptInserts c.items 0 insertOk).2 = false →
      pos_finalize_sale c true insertOk true
        = ⟨true, (attemptInserts c.items 0 insertOk).1, 0, c, .partialFailure⟩) := by
  constructor
  · intro hall
    simp only [pos_finalize_sale]
    rw [if_neg hne]
    simp [hall]
  · intro hfail
    simp only [pos_finalize_sale]
    rw [if_neg hne]
    simp [hfail]

/-- Witness for the amended C1: full success recalculates to 60, the partial
failure keeps the initial 0. -/
theorem pos_finalize_sale_total_spec_witness :
    (pos_finalize_sale c1Cart true (fun _ => true) true).totalAmount = 60
    ∧ (pos_finalize_sale c1Cart true c1InsertOk true).totalAmount = 0 := by
  constructor
  · have hatt := attemptInserts_all_ok c1Cart.items 0 (fun _ => true) (fun _ => rfl)
    have h := (pos_finalize_sale_total_spec c1Cart (fun _ => true) (by simp [c1Cart])).1
      (by rw [hatt])
    rw [h]
    show sumRowSubtotals (attemptInserts c1Cart.items 0 (fun _ => true)).1 = 60
    rw [hatt]
    simp only [c1Cart, List.map_cons, List.map_nil, sumRowSubtotals, add_sale_item_row,
      List.sum_cons, List.sum_nil]
    rw [c1_round2_ten, c1_round2_twenty, c1_round2_thirty]
    norm_num
  · have h := (pos_finalize_sale_total_spec c1Cart c1InsertOk (by simp [c1Cart])).2
      (by rw [c1_attempt_eval])
    rw [h]

/-- C7: on a successful store query, the weekly chart result has exactly one
data point per calendar day of `[start, end]` inclusive, in order; each point
is the stored per-day sum when present and `0.0` otherwise; and (as every
stored daily sum is an exact two-decimal amount) the reported `total` equals
the sum of the dense series. -/
theorem get_weekly_sales_chart_data_db_dense (m : ℤ → Option ℚ) (s e : ℤ)
    (hse : s ≤ e) (hcents : ∀ d q, m d = some q → IsCents q) :
    (get_weekly_sales_chart_data_db (Except.ok m) s e).data.length = (e - s + 1).toNat
    ∧ (∀ i (h : i < (get_weekly_sales_chart_data_db (Except.ok m) s e).data.length),
        (get_weekly_sales_chart_data_db (Except.ok m) s e).data.get ⟨i, h⟩
          = (m (s + (i : ℤ))).getD 0)
    ∧ (get_weekly_sales_chart_data_db (Except.ok m) s e).total
        = (get_weekly_sales_chart_data_db (Except.ok m) s e).data.sum := by
  have hdata : (get_weekly_sales_chart_data_db (Except.ok m) s e).data
      = ((List.range (e - s + 1).toNat).map (fun i : ℕ => s + (i : ℤ))).map
          (fun d => (m d).getD 0) := rfl
  refine ⟨?_, ?_, ?_⟩
  · rw [hdata]
    simp
  · intro i h
    rw [List.get_eq_getElem]
    have h2 : i < (((List.range (e - s + 1).toNat).map (fun i : ℕ => s + (i : ℤ))).map
        (fun d => (m d).getD 0)).length := by
      rw [← hdata]
      exact h
    calc (get_weekly_sales_chart_data_db (Except.ok m) s e).data[i]
        = (((List.range (e - s + 1).toNat).map (fun i : ℕ => s + (i : ℤ))).map
            (fun d => (m d).getD 0))[i] := by
          congr 1
      _ = (m (s + (i : ℤ))).getD 0 := by
          rw [List.getElem_map, List.getElem_map, List.getElem_range]
  · have hc : ∀ x ∈ (get_weekly_sales_chart_data_db (Except.ok m) s e).data, IsCents x := by
      intro x hx
      rw [hdata] at hx
      obtain ⟨d, hd, rfl⟩ := List.mem_map.1 hx
      cases hmd : m d with
      | none => simpa [hmd] using isCents_zero
      | some q => simpa [hmd] using hcents d q hmd
    exact round2_eq_self (isCents_listSum _ hc)

/-- Sparse sales map used to witness C7: sales only on two days of the week. -/
def c7SalesMap : ℤ → Option ℚ :=
  fun d => if d = 1 then some 20 else if d = 4 then some 30 else none

/-- Witness for C7: a 7-day week with sales on two days gives a 7-element
series whose total is the sum of the two entries. -/
theorem get_weekly_sales_chart_data_db_dense_witness :
    (get_weekly_sales_chart_data_db (Except.ok c7SalesMap) 0 6).data.length = 7
    ∧ (get_weekly_sales_chart_data_db (Except.ok c7SalesMap) 0 6).total = 50 := by
  obtain ⟨hlen, hval, htot⟩ := get_weekly_sales_chart_data_db_dense c7SalesMap 0 6
    (by norm_num)
    (by
      intro d q h
      simp only [c7SalesMap] at h
      split_ifs at h
      · have hq : q = 20 := by injection h with h20; exact h20.symm
        rw [hq]; exact ⟨2000, by norm_num⟩
      · have hq : q = 30 := by injection h with h30; exact h30.symm
        rw [hq]; exact ⟨3000, by norm_num⟩)
  constructor
  · rw [hlen]
    decide
  · rw [htot]
    have hdata : (get_weekly_sales_chart_data_db (Except.ok c7SalesMap) 0 6).data
        = [0, 20, 0, 0, 30, 0, 0] := by
      show ((List.range ((6 : ℤ) - 0 + 1).toNat).map (fun i : ℕ => (0 : ℤ) + (i : ℤ))).map
          (fun d => (c7SalesMap d).getD 0) = _
      rw [show ((6 : ℤ) - 0 + 1).toNat = 7 by decide,
        show List.range 7 = [0, 1, 2, 3, 4, 5, 6] from rfl]
      simp only [List.map_cons, List.map_nil, c7SalesMap]
      norm_num
    rw [hdata]
    norm_num

/-- C9: a store failure in the weekly or monthly report query does not raise:
the function returns the sentinel result with empty labels, empty data,
total 0, and an error field describing the reason. -/
theorem chart_query_store_failure_sentinel (e : String) (s d : ℤ) (y mo : ℕ) :
    get_weekly_sales_chart_data_db (Except.error e) s d = ⟨[], [], 0, some e⟩
    ∧ get_monthly_sales_chart_data_db (Except.error e) y mo
        = ⟨[], [], 0, monthName mo, some e⟩ :=
  ⟨rfl, rfl⟩

/-- C10: for every `POST /api/sales` with a non-empty items list (createSale
and the final UPDATE succeeding), invalid items are silently skipped, the
endpoint responds 201 Created with `total_amount_synced` equal to the sum of
the subtotals of exactly the items actually inserted, the persisted Sale row
carries that same total — and when every item is skipped the Sale row
persists with `TotalAmount = 0` and success is still reported. -/
theorem api_sync_sale_spec (items : List ApiItem) (cn : String) (sale_id : ℕ)
    (insertOk : ℕ → Bool) (hne : items ≠ []) :
    (api_sync_sale items cn (some sale_id) insertOk true).response
        = ApiResponse.created sale_id
            (sumRowSubtotals (api_sync_sale items cn (some sale_id) insertOk true).saleItems)
    ∧ (api_sync_sale items cn (some sale_id) insertOk true).saleRow
        = some (sale_id,
            sumRowSubtotals (api_sync_sale items cn (some sale_id) insertOk true).saleItems)
    ∧ (api_sync_sale items cn (some sale_id) insertOk true).saleItems
        = apiInserts items 0 insertOk
    ∧ ((∀ it ∈ items, apiItemAccepted it = false) →
        (api_sync_sale items cn (some sale_id) insertOk true).saleItems = []
        ∧ (api_sync_sale items cn (some sale_id) insertOk true).saleRow
            = some (sale_id, 0)) := by
  have hred : api_sync_sale items cn (some sale_id) insertOk true
      = ⟨.created sale_id (round2 (sumRowSubtotals (apiInserts items 0 insertOk))),
         some (sale_id, sumRowSubtotals (apiInserts items 0 insertOk)),
         apiInserts items 0 insertOk⟩ := by
    simp only [api_sync_sale]
    rw [if_neg hne]
    simp
  have hcents := isCents_sumRowSubtotals (apiInserts_cents items 0 insertOk)
  refine ⟨?_, ?_, ?_, ?_⟩
  · rw [hred]
    show ApiResponse.created sale_id (round2 (sumRowSubtotals (apiInserts items 0 insertOk)))
        = _
    rw [round2_eq_self hcents]
  · rw [hred]
  · rw [hred]
  · intro hall
    rw [hred]
    have hnil := apiInserts_all_skipped 0 insertOk hall
    refine ⟨hnil, ?_⟩
    show some (sale_id, sumRowSubtotals (apiInserts items 0 insertOk)) = _
    rw [hnil]
    simp [sumRowSubtotals]

/-- Items used to witness C10: all three are invalid (zero quantity, missing
name, empty name). -/
def c10Items : List ApiItem :=
  [⟨some "X", some 0, some 5⟩, ⟨none, some 1, some 1⟩, ⟨some "", some 1, some 1⟩]

/-- Witness for C10: a request whose every item is skipped still yields 201
with a synced total of 0 and a persisted Sale row with TotalAmount 0. -/
theorem api_sync_sale_spec_witness :
    (api_sync_sale c10Items "N/A" (some 7) (fun _ => true) true).response
      = ApiResponse.created 7 0
    ∧ (api_sync_sale c10Items "N/A" (some 7) (fun _ => true) true).saleRow
      = some (7, 0) := by
  obtain ⟨hresp, hrow, hitems, hall⟩ :=
    api_sync_sale_spec c10Items "N/A" 7 (fun _ => true) (by simp [c10Items])
  have hacc : ∀ it ∈ c10Items, apiItemAccepted it = false := by
    intro it hit
    simp only [c10Items, List.mem_cons, List.not_mem_nil, or_false] at hit
    rcases hit with h | h | h
    · rw [h]; rfl
    · rw [h]; rfl
    · rw [h]; rfl
  obtain ⟨hempty, hrow0⟩ := hall hacc
  constructor
  · rw [hresp, hempty]
    simp [sumRowSubtotals]
  · exact hrow0

theorem customerLe_trans (a b c : Customer) (hab : customerLe a b = true)
    (hbc : customerLe b c = true) : customerLe a c = true := by
  simp only [customerLe, decide_eq_true_eq] at hab hbc ⊢
  exact le_trans hab hbc

theorem customerLe_total (a b : Customer) :
    (customerLe a b || customerLe b a) = true := by
  simp only [customerLe, Bool.or_eq_true, decide_eq_true_eq]
  exact le_total _ _

theorem sortCustomersNocase_sorted (table : List Customer) :
    List.Pairwise (fun a b => customerLe a b = true) (sortCustomersNocase table) :=
  List.sorted_mergeSort customerLe_trans customerLe_total table

theorem sortCustomersNocase_length (table : List Customer) :
    (sortCustomersNocase table).length = table.length :=
  List.length_mergeSort table

/-- C8: customer pages are served at offset `(page - 1) * pageSize` from the
case-insensitively name-ordered table (so each served page is sorted, and its
size is `min pageSize (count - offset)`); a page whose offset is within the
table renders with `totalPages = ceil(count / pageSize)`; and a request past
the last non-empty page (with at least one customer) redirects to the last
valid page instead of failing. -/
theorem list_customers_spec (table : List Customer) (page : ℕ) (hp : 1 ≤ page) :
    List.Pairwise (fun a b => customerLe a b = true)
      (get_customers_paginated_db table page ITEMS_PER_PAGE)
    ∧ (get_customers_paginated_db table page ITEMS_PER_PAGE).length
        = min ITEMS_PER_PAGE (table.length - (page - 1) * ITEMS_PER_PAGE)
    ∧ ((page - 1) * ITEMS_PER_PAGE < table.length →
        list_customers table page
          = ListCustomersResult.page (get_customers_paginated_db table page ITEMS_PER_PAGE)
              page (ceilPages table.length ITEMS_PER_PAGE) table.length)
    ∧ (table.length ≤ (page - 1) * ITEMS_PER_PAGE → 1 < page → 0 < table.length →
        list_customers table page
          = ListCustomersResult.redirectToPage (ceilPages table.length ITEMS_PER_PAGE)) := by
  have hlen : (get_customers_paginated_db table page ITEMS_PER_PAGE).length
      = min ITEMS_PER_PAGE (table.length - (page - 1) * ITEMS_PER_PAGE) := by
    unfold get_customers_paginated_db
    rw [List.length_take, List.length_drop, sortCustomersNocase_length]
  refine ⟨?_, hlen, ?_, ?_⟩
  · exact List.Pairwise.sublist
      ((List.take_sublist _ _).trans (List.drop_sublist _ _))
      (sortCustomersNocase_sorted table)
  · intro ho
    have h0 : 0 < table.length := lt_of_le_of_lt (Nat.zero_le _) ho
    have hpos : 0 < (get_customers_paginated_db table page ITEMS_PER_PAGE).length := by
      rw [hlen]
      refine lt_min_iff.mpr ⟨by norm_num [ITEMS_PER_PAGE], Nat.sub_pos_of_lt ho⟩
    have hne : get_customers_paginated_db table page ITEMS_PER_PAGE ≠ [] :=
      List.length_pos.1 hpos
    simp only [list_customers]
    rw [if_neg (fun hcond => hne hcond.1), if_pos h0]
  · intro ho hp1 h0
    have hnil : get_customers_paginated_db table page ITEMS_PER_PAGE = [] := by
      unfold get_customers_paginated_db
      rw [List.drop_eq_nil_of_le (by rw [sortCustomersNocase_length]; exact ho)]
      rfl
    simp only [list_customers]
    rw [if_pos ⟨hnil, hp1, h0⟩, if_pos h0]

/-- Table of 25 customers used to witness C8. -/
def c8Table : List Customer := (List.range 25).map (fun i => ⟨i, "C"⟩)

/-- Witness for C8: with 25 customers and page size 10, page 3 holds 5
customers and page 4 redirects to page 3. -/
theorem list_customers_spec_witness :
    (get_customers_paginated_db c8Table 3 ITEMS_PER_PAGE).length = 5
    ∧ list_customers c8Table 4 = ListCustomersResult.redirectToPage 3 := by
  have hlen25 : c8Table.length = 25 := by simp [c8Table]
  have hceil : ceilPages 25 ITEMS_PER_PAGE = 3 := by
    have h3 : ⌈(25 : ℚ) / 10⌉ = (3 : ℤ) := by
      rw [Int.ceil_eq_iff]
      constructor <;> norm_num
    unfold ceilPages ITEMS_PER_PAGE
    push_cast
    rw [h3]
    rfl
  obtain ⟨-, hlen3, -, -⟩ := list_customers_spec c8Table 3 (by norm_num)
  obtain ⟨-, -, -, hred⟩ := list_customers_spec c8Table 4 (by norm_num)
  constructor
  · rw [hlen3, hlen25]
    decide
  · have h := hred (by rw [hlen25]; decide) (by norm_num) (by rw [hlen25]; norm_num)
    rw [h, hlen25, hceil]
